import Mathlib

/-!
Verification of the Mantle-Network-Diagram extraction core.

The definitions below are a shallow embedding of the Python sources:
  - MantleNetworkExplorer.py (namespace Explorer): build_relationship_graph,
    column detection, get_related_items, the is_quote pre-filter and the
    connected-subgraph restriction used by the actuarial/payment filter.
  - MantleNetworkDiagram_backup.py (namespace Backup): parse_dependencies and
    the edge-building part of create_network_data.

Cells of the pandas dataframe are modelled by the inductive type Cell: a cell
is either missing (na, the NaN of pandas), a string, or a number.  The Python
conversion str(cell) is modelled by pyStr (str of NaN is the string nan), and
pd.notna by notna.  Rows are lists of cells; access row.iloc[i] is cellAt,
which is total with default na exactly because the Python code always guards
accesses with an index bound.
-/

/-- A dataframe cell: missing (NaN), a string, or a number. -/
inductive Cell where
  | na : Cell
  | str : String → Cell
  | num : Int → Cell
deriving DecidableEq

/-- Python str(cell): str of NaN is the literal string nan. -/
def pyStr : Cell → String
  | Cell.na => "nan"
  | Cell.str s => s
  | Cell.num n => toString n

/-- pandas pd.notna. -/
def notna : Cell → Bool
  | Cell.na => false
  | _ => true

/-- A dataframe row is a list of cells. -/
abbrev Row := List Cell

/-- row.iloc i, total with default NaN (the sources always bound-check first). -/
def cellAt (r : Row) (i : Nat) : Cell := r.getD i Cell.na

/-! Python string methods, implemented by structural recursion over the
character list of the string (the built-in String operations of this Lean
version do not reduce inside the kernel, so they cannot be used where a
concrete witness is evaluated).  Each definition states which Python
operation it models. -/

/-- Python str.strip(): drop whitespace from both ends. -/
def pyTrim (s : String) : String :=
  ⟨((s.data.dropWhile Char.isWhitespace).reverse.dropWhile Char.isWhitespace).reverse⟩

/-- Python str.lower(). -/
def pyLower (s : String) : String := ⟨s.data.map Char.toLower⟩

/-- pat occurs as a contiguous sublist: the recursion behind the Python
substring test. -/
def hasSubChars (pat : List Char) : List Char → Bool
  | [] => pat.isEmpty
  | c :: rest => pat.isPrefixOf (c :: rest) || hasSubChars pat rest

/-- Python substring test: pat in s. -/
def hasSub (s pat : String) : Bool := hasSubChars pat.data s.data

/-- Python c in s for a single character. -/
def hasChar (s : String) (c : Char) : Bool := s.data.contains c

/-- Python s.split(sep)[0] for a one-character separator: the characters
before the first occurrence (the whole string when sep is absent). -/
def beforeFirst (s : String) (sep : Char) : String :=
  ⟨s.data.takeWhile (fun c => c != sep)⟩

/-- The second component of Python s.split(sep, 1) for a one-character
separator: the characters after the first occurrence (empty when sep is
absent). -/
def afterFirst (s : String) (sep : Char) : String :=
  ⟨(s.data.dropWhile (fun c => c != sep)).drop 1⟩

/-- len(s.split(sep)) equals the number of occurrences of the one-character
separator plus one, so the exactly-one-colon test of the sources is a count;
this counts the occurrences. -/
def countChar (s : String) (c : Char) : Nat := s.data.count c

/-- get_column_index from the sources (identical in all three scripts):
converts spreadsheet column letters to a zero-based index by folding
index * 26 + (ord(char.upper()) - ord(A)) + 1 over the characters and
subtracting one at the end.  The Python body cannot raise: ord and upper are
defined on every character and an empty string just skips the loop, so the
embedding is a total function into Int. -/
def get_column_index (col_str : String) : Int :=
  (col_str.data.foldl
    (fun index c =>
      index * 26 + ((Int.ofNat c.toUpper.toNat) - (Int.ofNat 'A'.toNat)) + 1) 0) - 1

/-- The uppercase spreadsheet alphabet, used to state well-formedness of a
column-letter string. -/
def uppercaseLetters : List Char :=
  ['A', 'B', 'C', 'D', 'E', 'F', 'G', 'H', 'I', 'J', 'K', 'L', 'M',
   'N', 'O', 'P', 'Q', 'R', 'S', 'T', 'U', 'V', 'W', 'X', 'Y', 'Z']

/-- Python range(s, e, 2): the indices s, s+2, ... strictly below e. -/
def pyRange2 (s e : Nat) : List Nat :=
  (List.range ((e - s + 1) / 2)).map (fun k => s + 2 * k)

example : pyRange2 109 229 = (List.range 60).map (fun k => 109 + 2 * k) := by
  decide

example : get_column_index "DF" = 109 := by decide
example : get_column_index "HV" = 229 := by decide
example : get_column_index "HW" = 230 := by decide
example : get_column_index "MN" = 351 := by decide

namespace Explorer

/-! Embedding of MantleNetworkExplorer.py. -/

/-- PARAMS1_COLS start, converted as in the source. -/
def col_start_1 : Nat := (get_column_index "DF").toNat

/-- PARAMS1_COLS end. -/
def col_end_1 : Nat := (get_column_index "HV").toNat

/-- PARAMS2_COLS start. -/
def col_start_2 : Nat := (get_column_index "HW").toNat

/-- PARAMS2_COLS end. -/
def col_end_2 : Nat := (get_column_index "MN").toNat

/-- The first dependency range: range(col_start_1, col_end_1 + 1), inclusive. -/
def range1cols : List Nat := List.range' col_start_1 (col_end_1 + 1 - col_start_1)

/-- The second dependency range: range(col_start_2, col_end_2 + 1), inclusive. -/
def range2cols : List Nat := List.range' col_start_2 (col_end_2 + 1 - col_start_2)

/-- The record stored in all_items for one row (the dict literal at the
store-item step of build_relationship_graph).  The ItemType field is named
itype here because the word type is a Lean keyword. -/
structure Item where
  id : String
  name : String
  node_name : String
  itype : String
  color : String
deriving DecidableEq

/-- The four detected semantic columns: id_item_col, id_event_col,
display_group_col, item_name_col. -/
structure Cols where
  idItem : Option Nat
  idEvent : Option Nat
  dispGroup : Option Nat
  itemName : Option Nat
deriving DecidableEq

/-- str(header).lower().strip() as applied to each header cell. -/
def hstrOf (c : Cell) : String := pyTrim (pyLower (pyStr c))

/-- Python truthiness of an optional column index: None and 0 are falsy. -/
def truthy : Option Nat → Bool
  | none => false
  | some n => n != 0

/-- all([id_item_col, id_event_col, display_group_col, item_name_col]). -/
def truthyAll (c : Cols) : Bool :=
  truthy c.idItem && truthy c.idEvent && truthy c.dispGroup && truthy c.itemName

/-- The exact-match pass over the headers: a header equal (lower-cased,
trimmed) to one of the four canonical names sets that column; a later
duplicate header overwrites an earlier one, as in the source. -/
def exactPass (hs : List Cell) : Cols :=
  hs.enum.foldl
    (fun acc p =>
      if notna p.2 then
        let s := hstrOf p.2
        if s = "id_item" then { acc with idItem := some p.1 }
        else if s = "id_event" then { acc with idEvent := some p.1 }
        else if s = "display_group" then { acc with dispGroup := some p.1 }
        else if s = "item_name" then { acc with itemName := some p.1 }
        else acc
      else acc)
    ⟨none, none, none, none⟩

/-- The partial-match pass: substring matches, each field only when still
None; for display_group the looser substring group is also accepted. -/
def partialPass (acc0 : Cols) (hs : List Cell) : Cols :=
  hs.enum.foldl
    (fun acc p =>
      if notna p.2 then
        let s := hstrOf p.2
        if acc.idItem = none ∧ hasSub s "id_item" then { acc with idItem := some p.1 }
        else if acc.idEvent = none ∧ hasSub s "id_event" then { acc with idEvent := some p.1 }
        else if acc.dispGroup = none ∧ (hasSub s "display_group" ∨ hasSub s "group") then
          { acc with dispGroup := some p.1 }
        else if acc.itemName = none ∧ hasSub s "item_name" then { acc with itemName := some p.1 }
        else acc
      else acc)
    acc0

/-- Python str.isdigit: nonempty and every character a digit. -/
def pyIsDigit (s : String) : Bool := s.length != 0 && s.data.all Char.isDigit

/-- The keyword list of the display_group pattern heuristic, in source order. -/
def groupKeywords : List String := ["calculation", "input", "benefit", "service", "rate"]

/-- The pattern-match pass over the first data row: the first 30 cells (or
fewer) are inspected; a cell containing exactly one colon is taken as
id_event, otherwise a long non-numeric non-boolean cell containing a domain
keyword is taken as display_group.  The try/except of the source never fires
in this model because every operation in the loop body is total. -/
def patternPass (acc0 : Cols) (sample : Row) : Cols :=
  (List.range (min 30 sample.length)).foldl
    (fun acc i =>
      let value := if notna (cellAt sample i) then pyTrim (pyStr (cellAt sample i)) else ""
      if acc.idEvent = none ∧ hasChar value ':' ∧ countChar value ':' = 1 then
        { acc with idEvent := some i }
      else if acc.dispGroup = none ∧ value ≠ "" ∧ value.length > 5 then
        if ¬ pyIsDigit value ∧ value ∉ ["TRUE", "FALSE", "0", "1"] then
          if groupKeywords.any (fun w => hasSub (pyLower value) w) then
            { acc with dispGroup := some i }
          else acc
        else acc
      else acc)
    acc0

/-- The column detection of build_relationship_graph: the whole three-tier
search is guarded by headers is not None; with no headers the source only
prints a message and leaves all four columns None.  With headers, the exact
pass runs, then the partial pass when not all four are truthy, then the
pattern pass on the first data row when still not all four are truthy and the
dataframe is nonempty. -/
def detect_columns (headers : Option (List Cell)) (df : List Row) : Cols :=
  match headers with
  | none => ⟨none, none, none, none⟩
  | some hs =>
    let c1 := exactPass hs
    let c2 := if truthyAll c1 then c1 else partialPass c1 hs
    if ¬ truthyAll c2 ∧ df ≠ [] then patternPass c2 (df.headD []) else c2

/-- The id_item column is usable for a row when it is detected, in range and
the cell is not NaN. -/
def idItemCellOk (cols : Cols) (row : Row) : Option Nat :=
  match cols.idItem with
  | some c => if c < row.length && notna (cellAt row c) then some c else none
  | none => none

/-- The canonical item id of a row: the detected id_item value (trimmed) when
usable, else str(row at ItemID, column 0) trimmed. -/
def canonId (cols : Cols) (row : Row) : String :=
  match idItemCellOk cols row with
  | some c => pyTrim (pyStr (cellAt row c))
  | none => pyTrim (pyStr (cellAt row 0))

/-- An optional display-name part from a detected column. -/
def optPart (colO : Option Nat) (row : Row) : Option String :=
  match colO with
  | some c =>
    if c < row.length && notna (cellAt row c) then some (pyTrim (pyStr (cellAt row c)))
    else none
  | none => none

/-- The four raw formatted-name parts, in source order; part 4 falls back to
the fixed ItemName column (index 1) when item_name is unresolved or NaN. -/
def formattedParts (cols : Cols) (row : Row) : List String :=
  let p1 :=
    match idItemCellOk cols row with
    | some c => pyTrim (pyStr (cellAt row c))
    | none => canonId cols row
  let rest :=
    [optPart cols.idEvent row, optPart cols.dispGroup row,
     match optPart cols.itemName row with
     | some s => some s
     | none => if notna (cellAt row 1) then some (pyTrim (pyStr (cellAt row 1))) else none]
  p1 :: rest.filterMap id

/-- list(dict.fromkeys(parts)): de-duplication keeping first occurrences. -/
def dedupFirst : List String → List String
  | [] => []
  | x :: xs => x :: (dedupFirst xs).filter (fun y => y ≠ x)

/-- get_node_color from MantleNetworkExplorer.py. -/
def get_node_color (c : Cell) : String :=
  if notna c = false then "#97C2FC"
  else
    let t := pyTrim (pyStr c)
    if t = "Component" then "#FF6B6B"
    else if t = "Service" then "#4ECDC4"
    else if t = "Database" then "#45B7D1"
    else if t = "API" then "#96CEB4"
    else if t = "Interface" then "#FFEAA7"
    else if t = "Process" then "#DDA0DD"
    else if t = "System" then "#98D8C8"
    else "#97C2FC"

/-- The item record stored for a row by build_relationship_graph. -/
def mkItem (cols : Cols) (row : Row) : Item :=
  let item_id := canonId cols row
  let unique_parts := dedupFirst ((formattedParts cols row).filter (fun p => p ≠ ""))
  { id := item_id
    name := String.intercalate " - " unique_parts
    node_name := unique_parts.getLastD item_id
    itype := if notna (cellAt row 2) then pyStr (cellAt row 2) else "Unknown"
    color := get_node_color (cellAt row 2) }

/-- One dependency cell of build_relationship_graph: a non-NaN cell whose
string form trims to a nonempty value yields a token, namely the part before
the first colon when a colon is present, else the whole trimmed value.  Both
ranges are scanned for every row, with only an index-bound guard. -/
def rowTokenAt (row : Row) (i : Nat) : Option String :=
  if i < row.length then
    let v := cellAt row i
    if notna v && pyTrim (pyStr v) != "" then
      let dv := pyTrim (pyStr v)
      some (if hasChar dv ':' then beforeFirst dv ':' else dv)
    else none
  else none

/-- All dependency tokens of a row: first range then second range,
unconditionally. -/
def rowTokens (row : Row) : List String :=
  (range1cols ++ range2cols).filterMap (rowTokenAt row)

/-- Python set.add on the duplicate-free list model of a set: a member is
not added twice, so membership in the list coincides with membership in the
Python set.  Lists are used instead of Finset so that every operation
reduces inside the kernel. -/
def pyInsert (l : List String) (x : String) : List String :=
  if x ∈ l then l else x :: l

/-- The state of build_relationship_graph: relationships (dependents of an
id), reverse_relationships (dependencies of an id) and all_items.  The two
defaultdicts of sets are modelled as total functions into duplicate-free
lists, the missing-key default being the empty set; all_items is an
association list where a later binding for the same id shadows an earlier
one, which is the last-write-wins dict semantics of the source. -/
structure GState where
  rel : String → List String
  rev : String → List String
  items : List (String × Item)

/-- Python dict lookup on the association-list model: the most recent
binding wins (bindings are prepended). -/
def dlookup (l : List (String × Item)) (k : String) : Option Item :=
  (l.find? (fun p => p.1 == k)).map Prod.snd

/-- Recording one dependency token of a row:
relationships[dep_id].add(item_id) and
reverse_relationships[item_id].add(dep_id), always together. -/
def addEdge (st : GState) (item_id tok : String) : GState :=
  { st with
    rel := Function.update st.rel tok (pyInsert (st.rel tok) item_id)
    rev := Function.update st.rev item_id (pyInsert (st.rev item_id) tok) }

/-- Recording all dependency tokens of one row. -/
def addDeps (st : GState) (item_id : String) (toks : List String) : GState :=
  toks.foldl (fun s t => addEdge s item_id t) st

/-- Processing one data row of build_relationship_graph: compute the
canonical id, skip the row entirely when it is empty, otherwise store the
item record and record every token of both ranges. -/
def procRow (cols : Cols) (st : GState) (row : Row) : GState :=
  let item_id := canonId cols row
  if item_id = "" then st
  else
    addDeps { st with items := (item_id, mkItem cols row) :: st.items } item_id (rowTokens row)

/-- build_relationship_graph: a single pass over the data rows. -/
def build_relationship_graph (cols : Cols) (df : List Row) : GState :=
  df.foldl (procRow cols) ⟨fun _ => [], fun _ => [], []⟩

/-- The graph restriction performed by filter_by_actuarial_payment_relationships
once the connected set is known: keep only keys inside the connected set and
intersect every adjacency set with it (dropping the then-empty entries does
not change any membership, so it needs no counterpart on the function
model); all_items is restricted to connected keys. -/
def filter_to_connected (connected : List String) (st : GState) : GState :=
  { rel := fun k => if k ∈ connected then (st.rel k).filter (fun x => x ∈ connected) else []
    rev := fun k => if k ∈ connected then (st.rev k).filter (fun x => x ∈ connected) else []
    items := st.items.filter (fun p => p.1 ∈ connected) }

/-- The is_quote column search of load_and_prepare_data: scan the integer
columns (index 3 and up, the first three being the renamed ItemID, ItemName
and ItemType), find the first whose values contain the substring is_quote
(lower-cased) in some row and which has a following column; the following
column holds the flag values. -/
def findIsQuoteCol (ncols : Nat) (df : List Row) : Option Nat :=
  ((List.range' 3 (ncols - 3)).find?
    (fun c =>
      df.any (fun r => hasSub (pyLower (pyStr (cellAt r c))) "is_quote") &&
      decide (c + 1 < ncols))).map (fun c => c + 1)

/-- The is_quote row filter of load_and_prepare_data: when a flag column was
found, keep exactly the rows whose flag cell, converted by str, differs from
the string 1; otherwise the dataframe is unchanged. -/
def load_filter (ncols : Nat) (df : List Row) : List Row :=
  match findIsQuoteCol ncols df with
  | some q => df.filter (fun r => pyStr (cellAt r q) != "1")
  | none => df

/-- Membership test current_id in all_items, as a Bool. -/
def isKnown (items : List (String × Item)) (n : String) : Bool :=
  (dlookup items n).isSome

/-- The key set of the item table, used only to justify termination of the
breadth-first search. -/
def keysOf (items : List (String × Item)) : Finset String :=
  (items.map Prod.fst).toFinset

theorem isKnown_mem_keysOf (items : List (String × Item)) (n : String)
    (h : isKnown items n = true) : n ∈ keysOf items := by
  unfold isKnown dlookup at h
  obtain ⟨it, hit⟩ := Option.isSome_iff_exists.mp h
  obtain ⟨p, hp, hsnd⟩ := Option.map_eq_some'.mp hit
  have hmem := List.mem_of_find?_eq_some hp
  have hpq := List.find?_some hp
  have : p.1 = n := by simpa using hpq
  subst this
  exact List.mem_toFinset.mpr (List.mem_map_of_mem Prod.fst hmem)

/-- The result of expanding one direction of neighbours of the current node:
the grown visited set, the enqueued pairs, and the appended edges. -/
structure ExpRes where
  vis : Finset String
  q : List (String × Nat)
  es : List (String × String)

/-- One neighbour loop of get_related_items: every neighbour not yet visited
and present in all_items is marked visited, enqueued at depth d + 1, and
contributes one edge (oriented by mk). -/
def expandDir (p : String → Bool) (mk : String → String × String) (d : Nat) :
    Finset String → List String → ExpRes
  | vis, [] => ⟨vis, [], []⟩
  | vis, n :: ns =>
    if n ∉ vis ∧ p n = true then
      let r := expandDir p mk d (insert n vis) ns
      ⟨r.vis, (n, d + 1) :: r.q, mk n :: r.es⟩
    else expandDir p mk d vis ns

theorem expandDir_len (p : String → Bool) (mk : String → String × String) (d : Nat) :
    ∀ (ns : List String) (vis : Finset String),
      (expandDir p mk d vis ns).q.length = (expandDir p mk d vis ns).es.length := by
  intro ns
  induction ns with
  | nil => intro vis; simp [expandDir]
  | cons n ns ih =>
    intro vis
    by_cases h : n ∉ vis ∧ p n = true
    · simp only [expandDir, if_pos h, List.length_cons]
      rw [ih]
    · simp only [expandDir, if_neg h]
      exact ih vis

theorem expandDir_q_known (p : String → Bool) (mk : String → String × String) (d : Nat) :
    ∀ (ns : List String) (vis : Finset String),
      ∀ pr ∈ (expandDir p mk d vis ns).q, p pr.1 = true := by
  intro ns
  induction ns with
  | nil => intro vis pr hpr; simp [expandDir] at hpr
  | cons n ns ih =>
    intro vis pr hpr
    by_cases h : n ∉ vis ∧ p n = true
    · simp only [expandDir, if_pos h, List.mem_cons] at hpr
      rcases hpr with hpr | hpr
      · subst hpr; exact h.2
      · exact ih _ pr hpr
    · simp only [expandDir, if_neg h] at hpr
      exact ih vis pr hpr

theorem expandDir_card (keys : Finset String) (p : String → Bool)
    (mk : String → String × String) (d : Nat)
    (hp : ∀ x, p x = true → x ∈ keys) :
    ∀ (ns : List String) (vis : Finset String),
      (keys \ (expandDir p mk d vis ns).vis).card + (expandDir p mk d vis ns).q.length ≤
        (keys \ vis).card := by
  intro ns
  induction ns with
  | nil => intro vis; simp [expandDir]
  | cons n ns ih =>
    intro vis
    by_cases h : n ∉ vis ∧ p n = true
    · simp only [expandDir, if_pos h, List.length_cons]
      have hins := ih (insert n vis)
      have hdiff : keys \ insert n vis = (keys \ vis).erase n := by
        ext x
        simp only [Finset.mem_sdiff, Finset.mem_insert, Finset.mem_erase]
        tauto
      have hnmem : n ∈ keys \ vis := Finset.mem_sdiff.mpr ⟨hp n h.2, h.1⟩
      have hcard : ((keys \ vis).erase n).card = (keys \ vis).card - 1 :=
        Finset.card_erase_of_mem hnmem
      have hpos : 1 ≤ (keys \ vis).card := Finset.card_pos.mpr ⟨n, hnmem⟩
      rw [hdiff, hcard] at hins
      omega
    · simp only [expandDir, if_neg h]
      exact ih vis

/-- The breadth-first loop of get_related_items.  The queue holds (id, depth)
pairs; the popped node is appended (with its record and depth) when present
in all_items, and below max_depth both neighbour directions are expanded:
first the dependencies (reverse_relationships), then the dependents
(relationships).  The visited set is a Finset only to provide the
termination measure; it is never inspected except through membership. -/
def bfsAux (items : List (String × Item)) (rel rev : String → List String)
    (maxD : Nat) (queue : List (String × Nat)) (visited : Finset String)
    (nodes : List (Item × Nat)) (edges : List (String × String)) :
    List (Item × Nat) × List (String × String) :=
  match queue with
  | [] => (nodes, edges)
  | (cur, d) :: rest =>
    if d < maxD then
      bfsAux items rel rev maxD
        (rest ++ (expandDir (isKnown items) (fun n => (n, cur)) d visited (rev cur)).q ++
          (expandDir (isKnown items) (fun n => (cur, n)) d
            (expandDir (isKnown items) (fun n => (n, cur)) d visited (rev cur)).vis
            (rel cur)).q)
        (expandDir (isKnown items) (fun n => (cur, n)) d
          (expandDir (isKnown items) (fun n => (n, cur)) d visited (rev cur)).vis
          (rel cur)).vis
        (match dlookup items cur with
          | some it => nodes ++ [(it, d)]
          | none => nodes)
        (edges ++ (expandDir (isKnown items) (fun n => (n, cur)) d visited (rev cur)).es ++
          (expandDir (isKnown items) (fun n => (cur, n)) d
            (expandDir (isKnown items) (fun n => (n, cur)) d visited (rev cur)).vis
            (rel cur)).es)
    else
      bfsAux items rel rev maxD rest visited
        (match dlookup items cur with
          | some it => nodes ++ [(it, d)]
          | none => nodes)
        edges
termination_by 2 * (keysOf items \ visited).card + queue.length
decreasing_by
· have h1 := expandDir_card (keysOf items) (isKnown items) (fun n => (n, cur)) d
    (fun x hx => isKnown_mem_keysOf items x hx) (rev cur) visited
  have h2 := expandDir_card (keysOf items) (isKnown items) (fun n => (cur, n)) d
    (fun x hx => isKnown_mem_keysOf items x hx) (rel cur)
    (expandDir (isKnown items) (fun n => (n, cur)) d visited (rev cur)).vis
  simp only [List.length_append, List.length_cons]
  omega
· simp only [List.length_cons]
  omega

/-- get_related_items: empty result for an unknown root, otherwise the
breadth-first traversal starting from the root at depth 0 with the root
already visited.  Python iterates the two neighbour sets of each node in
unspecified set order; the duplicate-free list model fixes one such order,
which affects only the order, never the membership or the counts, of the
produced node and edge lists. -/
def get_related_items (items : List (String × Item)) (rel rev : String → List String)
    (item_id : String) (max_depth : Nat) :
    List (Item × Nat) × List (String × String) :=
  if isKnown items item_id then
    bfsAux items rel rev max_depth [(item_id, 0)] {item_id} [] []
  else ([], [])

end Explorer

namespace Backup

/-! Embedding of MantleNetworkDiagram_backup.py (create_network_data). -/

/-- An edge dict of create_network_data: the keys from, to and name.  The
field from is named src here because from is a Lean keyword, and to is named
tgt for symmetry. -/
structure Edge where
  src : String
  tgt : String
  name : String
deriving DecidableEq

/-- valid_items = df.dropna(subset=[ItemID]): the rows whose ItemID cell
(column 0) is not NaN. -/
def validRows (df : List Row) : List Row :=
  df.filter (fun r => notna (cellAt r 0))

/-- valid_item_ids = set(valid_items[ItemID].astype(str)), modelled as the
list of those strings; only membership in it is ever used, and membership in
the list coincides with membership in the Python set. -/
def validIds (df : List Row) : List String :=
  (validRows df).map (fun r => pyStr (cellAt r 0))

/-- The part before the first colon, trimmed: the param_name of
param_info.split(colon, 1). -/
def splitHead (s : String) : String := pyTrim (beforeFirst s ':')

/-- The part after the first colon, trimmed: the param_type of
param_info.split(colon, 1).  Joining the tail with colons restores exactly
the remainder after the first occurrence. -/
def splitRest (s : String) : String := pyTrim (afterFirst s ':')

/-- parse_dependencies of create_network_data, for one row and one column
range: Python range(start_col, end_col, 2) visits label columns i and value
columns i + 1; out-of-range pairs are skipped; the label must be a string
cell containing a colon; the trimmed part after the first colon must be Item
or Series; the value is str(cell) without trimming, and is kept only when it
differs from the string nan (the pd.notna test on it is vacuous, since a
Python str is never NaN) and is a member of valid_item_ids.  The source of
each edge is str(row at ItemID). -/
def parse_dependencies (ids : List String) (row : Row) (startCol endCol : Nat) :
    List Edge :=
  (pyRange2 startCol endCol).filterMap
    (fun i =>
      if i < row.length ∧ i + 1 < row.length then
        match cellAt row i with
        | Cell.str s =>
          if hasChar s ':' then
            if splitRest s = "Item" ∨ splitRest s = "Series" then
              let target := pyStr (cellAt row (i + 1))
              if target ≠ "nan" ∧ target ∈ ids then
                some ⟨pyStr (cellAt row 0), target, splitHead s⟩
              else none
            else none
          else none
        | _ => none
      else none)

/-- The edges one valid row contributes in the first pass of
create_network_data: the first range always, the second range only when the
ItemType string contains the substring Series. -/
def rowEdges (ids : List String) (row : Row) : List Edge :=
  parse_dependencies ids row (get_column_index "DF").toNat (get_column_index "HV").toNat ++
    (if hasSub (pyStr (cellAt row 2)) "Series" then
      parse_dependencies ids row (get_column_index "HW").toNat (get_column_index "MN").toNat
    else [])

/-- The full edge list of create_network_data: valid rows in order, each
appending its row edges. -/
def create_network_data_edges (df : List Row) : List Edge :=
  (validRows df).flatMap (rowEdges (validIds df))

end Backup

/-- The two adjacency mappings of a graph state are mutual inverses: b is a
dependent of a exactly when a is a dependency of b. -/
def MutualInv (st : Explorer.GState) : Prop :=
  ∀ a b, b ∈ st.rel a ↔ a ∈ st.rev b

/-- A cell that is a string containing a colon: the only cells the pairwise
label rule of parse_dependencies can ever accept as a label. -/
def isColonLabel : Cell → Bool
  | Cell.str s => hasChar s ':'
  | _ => false

/-! Concrete dataframes used to evaluate the embedding at explicit inputs.
Rows are padded with NaN cells so that the dependency cells sit at the real
column indices of the sources (DF is index 109, HW is index 230). -/

/-- The column assignment of the no-headers path: all four detected columns
are None. -/
def colsNone : Explorer.Cols := ⟨none, none, none, none⟩

/-- One row, item id 7, whose only dependency cell (column DF = 109) holds
the token 99; no item with id 99 exists. -/
def df1 : List Row :=
  [Cell.str "7" :: Cell.str "ItemSeven" :: Cell.str "Item" ::
    (List.replicate 106 Cell.na ++ [Cell.str "99"])]

/-- One row, item id 7, whose only dependency cell (column DF = 109) holds
the token X; no cell of the row is a string containing a colon. -/
def row2x : Row :=
  Cell.str "7" :: Cell.na :: Cell.str "Item" ::
    (List.replicate 106 Cell.na ++ [Cell.str "X"])

/-- The dataframe holding only row2x. -/
def df2 : List Row := [row2x]

/-- One row of ItemType Item (so not a Series), whose only dependency cell
sits in the second column range (column HW = 230) and holds the token 5. -/
def df4 : List Row :=
  [Cell.str "7" :: Cell.na :: Cell.str "Item" ::
    (List.replicate 227 Cell.na ++ [Cell.str "5"])]

/-- A short row for evaluating parse_dependencies on a small range: label
cell A:Item at index 3, value cell 3 at index 4. -/
def rowW : Row := [Cell.str "7", Cell.na, Cell.na, Cell.str "A:Item", Cell.str "3"]

/-- Two rows for create_network_data: item 7 with the pair (Age:Item, 3) at
columns DF and DG, and item 3 with no dependencies. -/
def dfB : List Row :=
  [Cell.str "7" :: Cell.na :: Cell.na ::
    (List.replicate 106 Cell.na ++ [Cell.str "Age:Item", Cell.str "3"]),
   [Cell.str "3"]]

/-- Two rows carrying the same canonical id 7 with different names and
types. -/
def rows9 : List Row :=
  [[Cell.str "7", Cell.str "NameA", Cell.str "Item"],
   [Cell.str "7", Cell.str "NameB", Cell.str "Series"]]

/-- An arbitrary item record keyed a, for exercising the neighborhood
query. -/
def itemA : Explorer.Item := ⟨"a", "a", "a", "Item", "#97C2FC"⟩

/-- A one-item table for the neighborhood query. -/
def items1 : List (String × Explorer.Item) := [("a", itemA)]

/-- An empty dependents mapping. -/
def rel1 : String → List String := fun _ => []

/-- An empty dependencies mapping. -/
def rev1 : String → List String := fun _ => []

/-- A dataframe with an is_quote marker at column 3 (so the flag values live
in column 4): the row with id 7 carries flag 1, the row with id 8 does not. -/
def df8 : List Row :=
  [[Cell.str "x", Cell.na, Cell.na, Cell.str "flag is_quote", Cell.na],
   [Cell.str "7", Cell.na, Cell.na, Cell.na, Cell.str "1"],
   [Cell.str "8", Cell.na, Cell.na, Cell.na, Cell.na]]

/-- The flagged row of df8. -/
def row8bad : Row := [Cell.str "7", Cell.na, Cell.na, Cell.na, Cell.str "1"]

namespace Explorer

/-! Supporting lemmas about the graph construction. -/

theorem mem_pyInsert (l : List String) (x y : String) :
    y ∈ pyInsert l x ↔ y = x ∨ y ∈ l := by
  unfold pyInsert
  by_cases h : x ∈ l
  · simp only [if_pos h]
    constructor
    · intro hy; exact Or.inr hy
    · rintro (rfl | hy)
      · exact h
      · exact hy
  · simp [if_neg h]

theorem addEdge_items (st : GState) (a t : String) :
    (addEdge st a t).items = st.items := rfl

theorem addDeps_items (st : GState) (a : String) (toks : List String) :
    (addDeps st a toks).items = st.items := by
  induction toks generalizing st with
  | nil => rfl
  | cons t ts ih => exact ih (addEdge st a t)

theorem addDeps_rev_self (st : GState) (a : String) (toks : List String) (x : String) :
    x ∈ (addDeps st a toks).rev a ↔ x ∈ toks ∨ x ∈ st.rev a := by
  induction toks generalizing st with
  | nil => simp [addDeps]
  | cons t ts ih =>
    show x ∈ (addDeps (addEdge st a t) a ts).rev a ↔ _
    rw [ih]
    have : (addEdge st a t).rev a = pyInsert (st.rev a) t := by
      simp [addEdge, Function.update_apply]
    rw [this, mem_pyInsert]
    simp only [List.mem_cons]
    tauto

theorem addDeps_rev_ne (st : GState) (a : String) (toks : List String) (j : String)
    (h : j ≠ a) : (addDeps st a toks).rev j = st.rev j := by
  induction toks generalizing st with
  | nil => rfl
  | cons t ts ih =>
    show (addDeps (addEdge st a t) a ts).rev j = _
    rw [ih]
    simp [addEdge, Function.update_apply, h]

theorem addEdge_inv (st : GState) (a t : String) (h : MutualInv st) :
    MutualInv (addEdge st a t) := by
  intro x y
  simp only [addEdge, Function.update_apply]
  by_cases hx : x = t <;> by_cases hy : y = a
  · rw [if_pos hx, if_pos hy, mem_pyInsert, mem_pyInsert]
    constructor
    · intro _; exact Or.inl hx
    · intro _; exact Or.inl hy
  · rw [if_pos hx, if_neg hy, mem_pyInsert, hx]
    constructor
    · rintro (rfl | hyy)
      · exact absurd rfl hy
      · exact (h t y).mp hyy
    · intro hxx; exact Or.inr ((h t y).mpr hxx)
  · rw [if_neg hx, if_pos hy, mem_pyInsert, hy]
    constructor
    · intro hyy; exact Or.inr ((h x a).mp hyy)
    · rintro (rfl | hxx)
      · exact absurd rfl hx
      · exact (h x a).mpr hxx
  · rw [if_neg hx, if_neg hy]
    exact h x y

theorem addDeps_inv (st : GState) (a : String) (toks : List String) (h : MutualInv st) :
    MutualInv (addDeps st a toks) := by
  induction toks generalizing st with
  | nil => exact h
  | cons t ts ih => exact ih (addEdge st a t) (addEdge_inv st a t h)

theorem procRow_inv (cols : Cols) (st : GState) (row : Row) (h : MutualInv st) :
    MutualInv (procRow cols st row) := by
  unfold procRow
  by_cases hid : canonId cols row = ""
  · simp only [if_pos hid]; exact h
  · simp only [if_neg hid]
    exact addDeps_inv _ _ _ (fun a b => h a b)

theorem foldl_inv (cols : Cols) (rows : List Row) (st : GState) (h : MutualInv st) :
    MutualInv (rows.foldl (procRow cols) st) := by
  induction rows generalizing st with
  | nil => exact h
  | cons r rs ih => exact ih (procRow cols st r) (procRow_inv cols st r h)

theorem filter_inv (connected : List String) (st : GState) (h : MutualInv st) :
    MutualInv (filter_to_connected connected st) := by
  intro a b
  simp only [filter_to_connected]
  by_cases ha : a ∈ connected <;> by_cases hb : b ∈ connected
  · rw [if_pos ha, if_pos hb]
    simp only [List.mem_filter, decide_eq_true_eq]
    constructor
    · rintro ⟨h1, _⟩; exact ⟨(h a b).mp h1, ha⟩
    · rintro ⟨h1, _⟩; exact ⟨(h a b).mpr h1, hb⟩
  · rw [if_pos ha, if_neg hb]
    constructor
    · intro h1
      rcases List.mem_filter.mp h1 with ⟨_, h2⟩
      exact absurd (of_decide_eq_true h2) hb
    · intro h1
      exact absurd h1 (List.not_mem_nil a)
  · rw [if_neg ha, if_pos hb]
    constructor
    · intro h1
      exact absurd h1 (List.not_mem_nil b)
    · intro h1
      rcases List.mem_filter.mp h1 with ⟨_, h2⟩
      exact absurd (of_decide_eq_true h2) ha
  · rw [if_neg ha, if_neg hb]
    simp

theorem procRow_items (cols : Cols) (st : GState) (row : Row) :
    (procRow cols st row).items =
      if canonId cols row = "" then st.items
      else (canonId cols row, mkItem cols row) :: st.items := by
  unfold procRow
  by_cases hid : canonId cols row = ""
  · simp [if_pos hid]
  · simp [if_neg hid, addDeps_items]

theorem procRow_rev_ne (cols : Cols) (st : GState) (row : Row) (j : String)
    (hne : canonId cols row ≠ j) : (procRow cols st row).rev j = st.rev j := by
  unfold procRow
  by_cases hid : canonId cols row = ""
  · simp [if_pos hid]
  · simp only [if_neg hid]
    exact addDeps_rev_ne _ _ _ _ (fun hj => hne hj.symm)

theorem dlookup_cons (k : String) (v : Item) (l : List (String × Item)) (id : String) :
    dlookup ((k, v) :: l) id = if k = id then some v else dlookup l id := by
  by_cases h : k = id <;> simp [dlookup, List.find?_cons, h]

theorem build_items_lookup (cols : Cols) (rows : List Row) (st : GState) (id : String)
    (hid : id ≠ "") :
    dlookup ((rows.foldl (procRow cols) st).items) id =
      match (rows.filter (fun r => canonId cols r = id)).getLast? with
      | some r => some (mkItem cols r)
      | none => dlookup st.items id := by
  induction rows generalizing st with
  | nil => rfl
  | cons r rs ih =>
    rw [List.foldl_cons, ih (procRow cols st r)]
    by_cases hp : canonId cols r = id
    · have hfc : (r :: rs).filter (fun r => canonId cols r = id) =
          r :: rs.filter (fun r => canonId cols r = id) := by
        simp [List.filter_cons, hp]
      rw [hfc]
      rcases hfr : rs.filter (fun r => canonId cols r = id) with _ | ⟨r0, l0⟩
      · show dlookup (procRow cols st r).items id = some (mkItem cols r)
        have hne : canonId cols r ≠ "" := fun hz => hid (hp.symm.trans hz)
        rw [procRow_items, if_neg hne, dlookup_cons, if_pos hp]
      · rw [List.getLast?_cons_cons]
        rcases hgl : (r0 :: l0).getLast? with _ | r1
        · simp [List.getLast?] at hgl
        · rfl
    · have hfc : (r :: rs).filter (fun r => canonId cols r = id) =
          rs.filter (fun r => canonId cols r = id) := by
        simp [List.filter_cons, hp]
      rw [hfc]
      rcases hfr : rs.filter (fun r => canonId cols r = id) with _ | ⟨r0, l0⟩
      · show dlookup (procRow cols st r).items id = dlookup st.items id
        rw [procRow_items]
        by_cases hz : canonId cols r = ""
        · rw [if_pos hz]
        · rw [if_neg hz, dlookup_cons, if_neg hp]
      · rcases hgl : (r0 :: l0).getLast? with _ | r1
        · simp [List.getLast?] at hgl
        · rfl

theorem build_rev_mem (cols : Cols) (rows : List Row) (st : GState) (id t : String)
    (hid : id ≠ "") :
    t ∈ (rows.foldl (procRow cols) st).rev id ↔
      (∃ r ∈ rows, canonId cols r = id ∧ t ∈ rowTokens r) ∨ t ∈ st.rev id := by
  induction rows generalizing st with
  | nil => simp
  | cons r rs ih =>
    rw [List.foldl_cons, ih (procRow cols st r)]
    by_cases hp : canonId cols r = id
    · have hrev : ∀ x, x ∈ (procRow cols st r).rev id ↔ x ∈ rowTokens r ∨ x ∈ st.rev id := by
        intro x
        unfold procRow
        have hne : canonId cols r ≠ "" := by rw [hp]; exact hid
        simp only [if_neg hne]
        rw [hp] at hne ⊢
        exact addDeps_rev_self _ _ _ x
      rw [hrev t]
      constructor
      · rintro (⟨r', hr', h1, h2⟩ | ht | ht)
        · exact Or.inl ⟨r', List.mem_cons_of_mem r hr', h1, h2⟩
        · exact Or.inl ⟨r, List.mem_cons_self r rs, hp, ht⟩
        · exact Or.inr ht
      · rintro (⟨r', hr', h1, h2⟩ | ht)
        · rcases List.mem_cons.mp hr' with rfl | hr'
          · exact Or.inr (Or.inl h2)
          · exact Or.inl ⟨r', hr', h1, h2⟩
        · exact Or.inr (Or.inr ht)
    · rw [procRow_rev_ne cols st r id hp]
      constructor
      · rintro (⟨r', hr', h1, h2⟩ | ht)
        · exact Or.inl ⟨r', List.mem_cons_of_mem r hr', h1, h2⟩
        · exact Or.inr ht
      · rintro (⟨r', hr', h1, h2⟩ | ht)
        · rcases List.mem_cons.mp hr' with rfl | hr'
          · exact absurd h1 hp
          · exact Or.inl ⟨r', hr', h1, h2⟩
        · exact Or.inr ht

/-- The counting invariant of the breadth-first loop: when every queued id
is present in all_items, each pop appends exactly one node, and each
enqueued neighbour is paired with exactly one edge, so the final node count
exceeds the final edge count by the initial slack. -/
theorem bfs_count (items : List (String × Item)) (rel rev : String → List String)
    (maxD : Nat) :
    ∀ (queue : List (String × Nat)) (visited : Finset String)
      (nodes : List (Item × Nat)) (edges : List (String × String)),
      (∀ pr ∈ queue, isKnown items pr.1 = true) →
      (bfsAux items rel rev maxD queue visited nodes edges).1.length + edges.length =
        (bfsAux items rel rev maxD queue visited nodes edges).2.length + nodes.length +
          queue.length := by
  intro queue visited nodes edges
  induction queue, visited, nodes, edges using bfsAux.induct items rel rev maxD with
  | case1 visited nodes edges =>
    intro _
    simp only [bfsAux, List.length_nil]
    omega
  | case2 visited nodes edges cur d rest hlt ih =>
    intro hq
    have hcur : isKnown items cur = true := hq (cur, d) (List.mem_cons_self _ _)
    have hcur' := hcur
    unfold isKnown at hcur'
    obtain ⟨it, hit⟩ := Option.isSome_iff_exists.mp hcur'
    have hnew : ∀ pr ∈ rest ++
        (expandDir (isKnown items) (fun n => (n, cur)) d visited (rev cur)).q ++
        (expandDir (isKnown items) (fun n => (cur, n)) d
          (expandDir (isKnown items) (fun n => (n, cur)) d visited (rev cur)).vis
          (rel cur)).q, isKnown items pr.1 = true := by
      intro pr hpr
      rcases List.mem_append.mp hpr with hpr | hpr
      · rcases List.mem_append.mp hpr with hpr | hpr
        · exact hq pr (List.mem_cons_of_mem _ hpr)
        · exact expandDir_q_known _ _ _ _ _ pr hpr
      · exact expandDir_q_known _ _ _ _ _ pr hpr
    have hrec := ih hnew
    have hlen1 := expandDir_len (isKnown items) (fun n => (n, cur)) d (rev cur) visited
    have hlen2 := expandDir_len (isKnown items) (fun n => (cur, n)) d (rel cur)
      (expandDir (isKnown items) (fun n => (n, cur)) d visited (rev cur)).vis
    rw [bfsAux]
    simp only [hit, if_pos hlt]
    simp only [hit] at hrec
    simp only [List.length_append, List.length_cons, List.length_nil] at hrec ⊢
    omega
  | case3 visited nodes edges cur d rest hlt ih =>
    intro hq
    have hcur : isKnown items cur = true := hq (cur, d) (List.mem_cons_self _ _)
    have hcur' := hcur
    unfold isKnown at hcur'
    obtain ⟨it, hit⟩ := Option.isSome_iff_exists.mp hcur'
    have hrec := ih (fun pr hpr => hq pr (List.mem_cons_of_mem _ hpr))
    rw [bfsAux]
    simp only [hit, if_neg hlt]
    simp only [hit] at hrec
    simp only [List.length_append, List.length_cons, List.length_nil] at hrec ⊢
    omega

/-- Every item record in the table built by build_relationship_graph stems
from some row of the input whose canonical id is its key. -/
theorem build_items_source (cols : Cols) (rows : List Row) (st : GState) (id : String)
    (rec : Item) (h : dlookup ((rows.foldl (procRow cols) st).items) id = some rec) :
    (∃ r ∈ rows, canonId cols r = id) ∨ dlookup st.items id = some rec := by
  induction rows generalizing st with
  | nil => exact Or.inr h
  | cons r rs ih =>
    rw [List.foldl_cons] at h
    rcases ih (procRow cols st r) h with hr | hr
    · obtain ⟨r', hr', hc⟩ := hr
      exact Or.inl ⟨r', List.mem_cons_of_mem r hr', hc⟩
    · rw [procRow_items] at hr
      by_cases hz : canonId cols r = ""
      · rw [if_pos hz] at hr; exact Or.inr hr
      · rw [if_neg hz, dlookup_cons] at hr
        by_cases hp : canonId cols r = id
        · exact Or.inl ⟨r, List.mem_cons_self r rs, hp⟩
        · rw [if_neg hp] at hr; exact Or.inr hr

end Explorer

namespace Backup

/-- Soundness of parse_dependencies: every produced edge arises from a label
column i of the scanned range whose cell is a string containing a colon,
whose part after the first colon trims to Item or Series, and whose value
cell (column i + 1, converted by str but not trimmed) is a known id distinct
from the string nan; the source of the edge is str of the ItemID cell and
its name is the trimmed part before the first colon. -/
theorem parse_mem (ids : List String) (row : Row) (s e : Nat) (ed : Edge)
    (h : ed ∈ parse_dependencies ids row s e) :
    ∃ i ∈ pyRange2 s e, i + 1 < row.length ∧
      ∃ lbl, cellAt row i = Cell.str lbl ∧ hasChar lbl ':' = true ∧
        (splitRest lbl = "Item" ∨ splitRest lbl = "Series") ∧
        ed = ⟨pyStr (cellAt row 0), pyStr (cellAt row (i + 1)), splitHead lbl⟩ ∧
        ed.tgt ≠ "nan" ∧ ed.tgt ∈ ids := by
  unfold parse_dependencies at h
  rw [List.mem_filterMap] at h
  obtain ⟨i, hi, hbody⟩ := h
  refine ⟨i, hi, ?_⟩
  by_cases hlen : i < row.length ∧ i + 1 < row.length
  · rw [if_pos hlen] at hbody
    rcases hc : cellAt row i with _ | lbl | n <;> rw [hc] at hbody
    · simp at hbody
    · dsimp only at hbody
      by_cases h1 : hasChar lbl ':' = true
      · rw [if_pos h1] at hbody
        by_cases h2 : splitRest lbl = "Item" ∨ splitRest lbl = "Series"
        · rw [if_pos h2] at hbody
          by_cases h3 : pyStr (cellAt row (i + 1)) ≠ "nan" ∧ pyStr (cellAt row (i + 1)) ∈ ids
          · rw [if_pos h3] at hbody
            have hed := Option.some_injective _ hbody
            refine ⟨hlen.2, lbl, rfl, h1, h2, hed.symm, ?_, ?_⟩
            · rw [← hed]; exact h3.1
            · rw [← hed]; exact h3.2
          · rw [if_neg h3] at hbody; simp at hbody
        · rw [if_neg h2] at hbody; simp at hbody
      · rw [if_neg h1] at hbody; simp at hbody
    · simp at hbody
  · rw [if_neg hlen] at hbody
    simp at hbody

/-- Every edge a row contributes comes either from the first range or, when
the ItemType contains the substring Series, from the second range. -/
theorem rowEdges_cases (ids : List String) (row : Row) (ed : Edge)
    (h : ed ∈ rowEdges ids row) :
    ed ∈ parse_dependencies ids row (get_column_index "DF").toNat
        (get_column_index "HV").toNat ∨
      (hasSub (pyStr (cellAt row 2)) "Series" = true ∧
        ed ∈ parse_dependencies ids row (get_column_index "HW").toNat
          (get_column_index "MN").toNat) := by
  unfold rowEdges at h
  rw [List.mem_append] at h
  rcases h with h | h
  · exact Or.inl h
  · by_cases hs : hasSub (pyStr (cellAt row 2)) "Series" = true
    · rw [if_pos hs] at h
      exact Or.inr ⟨hs, h⟩
    · rw [if_neg hs] at h
      exact absurd h (List.not_mem_nil ed)

end Backup

/-- Each uppercase letter contributes a base-26 digit between 1 and 26 in
the column-index fold. -/
theorem upper_digit_bounds (c : Char) (hc : c ∈ uppercaseLetters) :
    1 ≤ (Int.ofNat c.toUpper.toNat) - (Int.ofNat 'A'.toNat) + 1 ∧
      (Int.ofNat c.toUpper.toNat) - (Int.ofNat 'A'.toNat) + 1 ≤ 26 := by
  simp only [uppercaseLetters] at hc
  fin_cases hc <;> exact ⟨by decide, by decide⟩

/-- The column-index fold never decreases from a nonnegative accumulator
when every character is an uppercase letter. -/
theorem colfold_ge (l : List Char) (hl : ∀ c ∈ l, c ∈ uppercaseLetters) :
    ∀ acc : Int, 0 ≤ acc →
      acc ≤ l.foldl
        (fun index c =>
          index * 26 + ((Int.ofNat c.toUpper.toNat) - (Int.ofNat 'A'.toNat)) + 1) acc := by
  induction l with
  | nil => intro acc _; exact le_refl acc
  | cons c cs ih =>
    intro acc hacc
    have hd := upper_digit_bounds c (hl c (List.mem_cons_self c cs))
    have hstep : acc + 1 ≤ acc * 26 + ((Int.ofNat c.toUpper.toNat) - (Int.ofNat 'A'.toNat)) + 1 := by
      nlinarith [hd.1, hd.2, hacc]
    have hrest := ih (fun x hx => hl x (List.mem_cons_of_mem c hx))
      (acc * 26 + ((Int.ofNat c.toUpper.toNat) - (Int.ofNat 'A'.toNat)) + 1)
      (by omega)
    calc acc ≤ acc * 26 + ((Int.ofNat c.toUpper.toNat) - (Int.ofNat 'A'.toNat)) + 1 := by omega
      _ ≤ _ := hrest

/-- C5: for every graph produced by build_relationship_graph the dependents
mapping (relationships) and the dependencies mapping (reverse_relationships)
are mutual inverses, and the restriction performed by the flag-based
subgraph filter preserves this invariant for every connected set. -/
theorem C5_theorem (cols : Explorer.Cols) (df : List Row) (connected : List String) :
    MutualInv (Explorer.build_relationship_graph cols df) ∧
    MutualInv (Explorer.filter_to_connected connected
      (Explorer.build_relationship_graph cols df)) := by
  have hinv : MutualInv (Explorer.build_relationship_graph cols df) := by
    apply Explorer.foldl_inv
    intro a b
    simp [Explorer.GState.rel, Explorer.GState.rev]
  exact ⟨hinv, Explorer.filter_inv connected _ hinv⟩

/-- C9: when the same canonical id occurs on several rows, the stored item
record is the one of the last such row, while the dependency set accumulated
for the id is the union of the tokens decoded from all of its rows. -/
theorem C9_theorem (cols : Explorer.Cols) (df : List Row) (id : String) (hid : id ≠ "") :
    (Explorer.dlookup (Explorer.build_relationship_graph cols df).items id =
      Option.map (Explorer.mkItem cols)
        ((df.filter (fun r => Explorer.canonId cols r = id)).getLast?)) ∧
    (∀ t, t ∈ (Explorer.build_relationship_graph cols df).rev id ↔
      ∃ r ∈ df, Explorer.canonId cols r = id ∧ t ∈ Explorer.rowTokens r) := by
  constructor
  · rw [Explorer.build_relationship_graph, Explorer.build_items_lookup cols df _ id hid]
    cases (df.filter (fun r => Explorer.canonId cols r = id)).getLast? <;> rfl
  · intro t
    rw [Explorer.build_relationship_graph, Explorer.build_rev_mem cols df _ id t hid]
    simp [Explorer.GState.rev]

/-- C9 witness: on two rows that share the canonical id 7 the stored record
is the one of the second row. -/
theorem C9_witness :
    Explorer.dlookup (Explorer.build_relationship_graph colsNone rows9).items "7" =
      Option.map (Explorer.mkItem colsNone)
        ((rows9.filter (fun r => Explorer.canonId colsNone r = "7")).getLast?) :=
  (C9_theorem colsNone rows9 "7" (by decide)).1

/-- C7: the neighborhood query at depth 0 on a root present in the item
table returns exactly the root node with depth 0 and no edges. -/
theorem C7_theorem (items : List (String × Explorer.Item)) (rel rev : String → List String)
    (root : String) (it : Explorer.Item) (h : Explorer.dlookup items root = some it) :
    Explorer.get_related_items items rel rev root 0 = ([(it, 0)], []) := by
  have hk : Explorer.isKnown items root = true := by
    unfold Explorer.isKnown
    rw [h]
    rfl
  unfold Explorer.get_related_items
  rw [if_pos hk]
  simp [Explorer.bfsAux, h]

/-- C7 witness: the depth-0 query on the one-item table returns that item
alone. -/
theorem C7_witness :
    Explorer.get_related_items items1 rel1 rev1 "a" 0 = ([(itemA, 0)], []) :=
  C7_theorem items1 rel1 rev1 "a" itemA (by decide)

/-- C10: for every known root and every depth bound, the neighborhood query
returns exactly one more node than it returns edges. -/
theorem C10_theorem (items : List (String × Explorer.Item)) (rel rev : String → List String)
    (root : String) (maxD : Nat) (h : Explorer.isKnown items root = true) :
    (Explorer.get_related_items items rel rev root maxD).1.length =
      (Explorer.get_related_items items rel rev root maxD).2.length + 1 := by
  unfold Explorer.get_related_items
  rw [if_pos h]
  have hc := Explorer.bfs_count items rel rev maxD [(root, 0)] {root} [] []
    (by
      intro pr hpr
      rw [List.mem_singleton] at hpr
      subst hpr
      exact h)
  simpa using hc

/-- C10 witness: the query on the one-item table at depth 2 returns one node
and zero edges. -/
theorem C10_witness :
    (Explorer.get_related_items items1 rel1 rev1 "a" 2).1.length =
      (Explorer.get_related_items items1 rel1 rev1 "a" 2).2.length + 1 :=
  C10_theorem items1 rel1 rev1 "a" 2 (by decide)

/-- C8: when load_and_prepare_data has found an is_quote flag column, every
row whose flag cell converts to the string 1 is removed (so it is never
turned into an item and never scanned for dependencies), and every surviving
row has a flag cell different from 1. -/
theorem C8_theorem (ncols : Nat) (df : List Row) (q : Nat) (r : Row)
    (hfind : Explorer.findIsQuoteCol ncols df = some q) (_hr : r ∈ df)
    (hflag : pyStr (cellAt r q) = "1") :
    r ∉ Explorer.load_filter ncols df ∧
      ∀ r2 ∈ Explorer.load_filter ncols df, pyStr (cellAt r2 q) ≠ "1" := by
  unfold Explorer.load_filter
  rw [hfind]
  constructor
  · intro hmem
    rcases List.mem_filter.mp hmem with ⟨_, hpred⟩
    rw [hflag] at hpred
    simp at hpred
  · intro r2 hmem
    rcases List.mem_filter.mp hmem with ⟨_, hpred⟩
    simpa using hpred

/-- C8 witness: in df8 the flag column is detected at index 4 and the
flagged row with id 7 is filtered out. -/
theorem C8_witness :
    row8bad ∉ Explorer.load_filter 5 df8 ∧
      ∀ r2 ∈ Explorer.load_filter 5 df8, pyStr (cellAt r2 4) ≠ "1" :=
  C8_theorem 5 df8 4 row8bad (by decide) (by decide) (by decide)

/-- C1 counterexample: build_relationship_graph records the token 99 of row
7 in both adjacency mappings even though no item with id 99 exists, so graph
extraction does create adjacency entries referencing ids absent from the
item table. -/
theorem C1_counterexample :
    "99" ∈ (Explorer.build_relationship_graph colsNone df1).rev "7" ∧
    "7" ∈ (Explorer.build_relationship_graph colsNone df1).rel "99" ∧
    Explorer.dlookup (Explorer.build_relationship_graph colsNone df1).items "99" = none := by
  decide

/-- C1 amended: in create_network_data of the backup script every
materialized edge has both endpoints in the valid item-id set; dependency
targets that are not known ids are dropped silently there. -/
theorem C1_theorem (df : List Row) (ed : Backup.Edge)
    (h : ed ∈ Backup.create_network_data_edges df) :
    ed.src ∈ Backup.validIds df ∧ ed.tgt ∈ Backup.validIds df := by
  unfold Backup.create_network_data_edges at h
  rw [List.mem_flatMap] at h
  obtain ⟨row, hrow, hed⟩ := h
  have hsrc : pyStr (cellAt row 0) ∈ Backup.validIds df :=
    List.mem_map_of_mem _ hrow
  rcases Backup.rowEdges_cases _ _ _ hed with hp | hp2
  · obtain ⟨i, hi, hilen, lbl, hc, h1, h2, hedq, hnan, htgt⟩ :=
      Backup.parse_mem _ _ _ _ _ hp
    refine ⟨?_, htgt⟩
    rw [hedq]
    exact hsrc
  · obtain ⟨hs, hp⟩ := hp2
    obtain ⟨i, hi, hilen, lbl, hc, h1, h2, hedq, hnan, htgt⟩ :=
      Backup.parse_mem _ _ _ _ _ hp
    refine ⟨?_, htgt⟩
    rw [hedq]
    exact hsrc

/-- C1 witness: the edge from item 7 to item 3 produced by dfB has both
endpoints among the valid ids. -/
theorem C1_witness :
    ((⟨"7", "3", "Age"⟩ : Backup.Edge) ∈ Backup.create_network_data_edges dfB) ∧
    ((⟨"7", "3", "Age"⟩ : Backup.Edge).src ∈ Backup.validIds dfB ∧
      (⟨"7", "3", "Age"⟩ : Backup.Edge).tgt ∈ Backup.validIds dfB) :=
  ⟨by decide, C1_theorem dfB ⟨"7", "3", "Age"⟩ (by decide)⟩

/-- C2 counterexample: no cell of row2x is a string containing a colon, so
no label cell can satisfy the Item or Series rule, yet build_relationship_graph
turns the bare cell X into an edge of item 7: the explorer does not consume
cells as label and value pairs at all. -/
theorem C2_counterexample :
    (∀ i < 110, isColonLabel (cellAt row2x i) = false) ∧
    "X" ∈ (Explorer.build_relationship_graph colsNone df2).rev "7" := by
  decide

/-- C2 amended: in parse_dependencies of the backup script, cells are
consumed pairwise and a reference is accepted only when the label cell is a
string containing a colon whose part after the first colon trims to Item or
Series; the value cell is then converted by str without trimming, and
becomes the target only when it differs from nan and is a known id. -/
theorem C2_theorem (ids : List String) (row : Row) (s e : Nat) (ed : Backup.Edge)
    (h : ed ∈ Backup.parse_dependencies ids row s e) :
    ∃ i ∈ pyRange2 s e, i + 1 < row.length ∧
      ∃ lbl, cellAt row i = Cell.str lbl ∧ hasChar lbl ':' = true ∧
        (Backup.splitRest lbl = "Item" ∨ Backup.splitRest lbl = "Series") ∧
        ed = ⟨pyStr (cellAt row 0), pyStr (cellAt row (i + 1)), Backup.splitHead lbl⟩ ∧
        ed.tgt ≠ "nan" ∧ ed.tgt ∈ ids :=
  Backup.parse_mem ids row s e ed h

/-- C2 witness: the pair at columns 3 and 4 of rowW yields the edge with
label A, and the theorem recovers its label column. -/
theorem C2_witness :
    ((⟨"7", "3", "A"⟩ : Backup.Edge) ∈ Backup.parse_dependencies ["7", "3"] rowW 3 7) ∧
    (∃ i ∈ pyRange2 3 7, i + 1 < rowW.length ∧
      ∃ lbl, cellAt rowW i = Cell.str lbl ∧ hasChar lbl ':' = true ∧
        (Backup.splitRest lbl = "Item" ∨ Backup.splitRest lbl = "Series") ∧
        (⟨"7", "3", "A"⟩ : Backup.Edge) =
          ⟨pyStr (cellAt rowW 0), pyStr (cellAt rowW (i + 1)), Backup.splitHead lbl⟩ ∧
        (⟨"7", "3", "A"⟩ : Backup.Edge).tgt ≠ "nan" ∧
        (⟨"7", "3", "A"⟩ : Backup.Edge).tgt ∈ ["7", "3"]) :=
  ⟨by decide, C2_theorem ["7", "3"] rowW 3 7 ⟨"7", "3", "A"⟩ (by decide)⟩

/-- C3 counterexample: with header row None the detection leaves all four
fields unresolved even though the first data row holds a cell that the
pattern pass would recognize as id_event (shown by the second conjunct):
the pattern tier is not consulted when no header row exists. -/
theorem C3_counterexample :
    Explorer.detect_columns none [[Cell.na, Cell.str "6:Active retirement"]] =
      ⟨none, none, none, none⟩ ∧
    Explorer.patternPass ⟨none, none, none, none⟩ [Cell.na, Cell.str "6:Active retirement"] =
      ⟨none, some 1, none, none⟩ := by
  decide

/-- C3 amended: the pattern tier runs only inside the headers-present
branch; with header row None every field stays unresolved, while with a
header row that matches nothing the pattern pass does infer id_event from
the first data row. -/
theorem C3_theorem :
    (∀ df : List Row, Explorer.detect_columns none df = ⟨none, none, none, none⟩) ∧
    Explorer.detect_columns (some [Cell.str "x"]) [[Cell.na, Cell.str "6:Active"]] =
      ⟨none, some 1, none, none⟩ :=
  ⟨fun _ => rfl, by decide⟩

set_option maxRecDepth 4000 in
/-- C4 counterexample: the row of df4 has ItemType Item, which does not
contain the substring Series, yet build_relationship_graph scans the second
column range and records the token at column HW as a dependency of item 7. -/
theorem C4_counterexample :
    hasSub (pyStr (cellAt (df4.headD []) 2)) "Series" = false ∧
    "5" ∈ (Explorer.build_relationship_graph colsNone df4).rev "7" := by
  decide

/-- C4 amended: in create_network_data of the backup script an edge exists
exactly when some valid row yields it from the first range (always scanned)
or from the second range under the condition that the ItemType string of the
row contains the substring Series. -/
theorem C4_theorem (df : List Row) (ed : Backup.Edge) :
    ed ∈ Backup.create_network_data_edges df ↔
      ∃ row ∈ Backup.validRows df,
        (ed ∈ Backup.parse_dependencies (Backup.validIds df) row 109 229 ∨
          (hasSub (pyStr (cellAt row 2)) "Series" = true ∧
            ed ∈ Backup.parse_dependencies (Backup.validIds df) row 230 351)) := by
  have e1 : (get_column_index "DF").toNat = 109 := by decide
  have e2 : (get_column_index "HV").toNat = 229 := by decide
  have e3 : (get_column_index "HW").toNat = 230 := by decide
  have e4 : (get_column_index "MN").toNat = 351 := by decide
  unfold Backup.create_network_data_edges
  rw [List.mem_flatMap]
  constructor
  · rintro ⟨row, hrow, hed⟩
    rcases Backup.rowEdges_cases _ _ _ hed with h | ⟨hs, h⟩
    · rw [e1, e2] at h
      exact ⟨row, hrow, Or.inl h⟩
    · rw [e3, e4] at h
      exact ⟨row, hrow, Or.inr ⟨hs, h⟩⟩
  · rintro ⟨row, hrow, hed | ⟨hs, hed⟩⟩
    · refine ⟨row, hrow, ?_⟩
      unfold Backup.rowEdges
      rw [List.mem_append, e1, e2]
      exact Or.inl hed
    · refine ⟨row, hrow, ?_⟩
      unfold Backup.rowEdges
      rw [List.mem_append, e3, e4, if_pos hs]
      exact Or.inr hed

/-- C6 counterexample: get_column_index does not fail on empty or non-letter
input; it returns the index minus one of the accumulated fold, namely -1 for
the empty string and -16 for the digit string 1. -/
theorem C6_counterexample :
    get_column_index "" = -1 ∧ get_column_index "1" = -16 := by
  decide

/-- C6 amended: get_column_index is total and never signals an error; on the
standard examples it reproduces the spreadsheet scheme, and on every
nonempty string of uppercase letters it returns a nonnegative index. -/
theorem C6_theorem :
    (get_column_index "A" = 0 ∧ get_column_index "Z" = 25 ∧
      get_column_index "AA" = 26 ∧ get_column_index "DF" = 109) ∧
    ∀ s : String, s ≠ "" → (∀ c ∈ s.data, c ∈ uppercaseLetters) →
      0 ≤ get_column_index s := by
  refine ⟨⟨by decide, by decide, by decide, by decide⟩, ?_⟩
  intro s hs hl
  obtain ⟨data⟩ := s
  match data with
  | [] => exact absurd rfl hs
  | c :: cs =>
    unfold get_column_index
    have hd := upper_digit_bounds c (hl c (by simp))
    have h0 : (0 : Int) ≤ 0 * 26 + ((Int.ofNat c.toUpper.toNat) - (Int.ofNat 'A'.toNat)) + 1 := by
      omega
    have hrest := colfold_ge cs (fun x hx => hl x (by simp [hx]))
      (0 * 26 + ((Int.ofNat c.toUpper.toNat) - (Int.ofNat 'A'.toNat)) + 1) h0
    simp only [List.foldl_cons]
    omega

/-- C6 witness: the two-letter string BC is nonempty, consists of uppercase
letters, and receives a nonnegative index. -/
theorem C6_witness :
    (("BC" : String) ≠ "" ∧ ∀ c ∈ ("BC" : String).data, c ∈ uppercaseLetters) ∧
    0 ≤ get_column_index "BC" :=
  ⟨⟨by decide, by decide⟩, C6_theorem.2 "BC" (by decide) (by decide)⟩
